import Mathlib

/-!
Shallow embedding of the Modmail bot core (`src/bot.py`), covering the block
policy evaluator (`ModmailBot._process_blocked`), the inbound DM pipeline
(`ModmailBot.process_modmail`, `ModmailBot.on_message`), startup closure
recovery (`ModmailBot.on_ready`), the reaction-driven close handler
(`ModmailBot.on_raw_reaction_add`) and the channel-deletion handler
(`ModmailBot.on_guild_channel_delete`).

Timestamps and durations are modelled as integer seconds.  ISO-8601
timestamp rendering is modelled by decimal rendering of those integers, so
`datetime.fromisoformat` becomes a decimal parse whose failure (Python
`ValueError`, uncaught at the one call site inside `_process_blocked`)
is modelled by `none` propagating to the caller.
-/

namespace Modmail

/-- A Boolean prefix test on character lists, modelling Python
`str.startswith` (`charsLead pre s` is true when `pre` is an initial
segment of `s`). -/
def charsLead : List Char → List Char → Bool
  | [], _ => true
  | _ :: _, [] => false
  | a :: asr, b :: bs => a == b && charsLead asr bs

/-- Python `s.startswith(pre)`. -/
def strStartsWith (s pre : String) : Bool :=
  charsLead pre.data s.data

/-- The characters after the first `'%'` of a character list, when the list
contains one. -/
def after_first_percent : List Char → Option (List Char)
  | [] => none
  | c :: cs => if c = '%' then some cs else after_first_percent cs

/-- Models `re.search(r"%(.+?)%$", reason)` followed by `.group(1)`: the
pattern matches exactly when `reason` ends with `'%'` and a strictly earlier
`'%'` exists with at least one character after it before the final `'%'`;
the group is everything between the first `'%'` and the final one. -/
def search_expiry (s : String) : Option String :=
  match s.data.getLast? with
  | some '%' =>
    match after_first_percent s.data.dropLast with
    | some rest => if rest.isEmpty then none else some (String.mk rest)
    | none => none
  | _ => none

/-- Decimal digit accumulation: `none` when a non-digit occurs. -/
def parse_digits_aux : List Char → Nat → Option Nat
  | [], acc => some acc
  | c :: cs, acc =>
    if c.isDigit then parse_digits_aux cs (acc * 10 + (c.toNat - 48))
    else none

/-- Models `datetime.fromisoformat` on the decimal rendering of integer
timestamps (an optionally negated digit string); `none` models the
`ValueError` raised on unparsable input. -/
def fromisoformat (s : String) : Option Int :=
  match s.data with
  | [] => none
  | '-' :: [] => none
  | '-' :: rest => (parse_digits_aux rest 0).map (fun n => -(n : Int))
  | cs => (parse_digits_aux cs 0).map (fun n => (n : Int))

/-- A stored duration-typed config value (`account_age` / `guild_age`):
absent (`None`), already a duration object, or a stored string that either
parses to a duration or is malformed. -/
inductive DurConfig where
  | absent
  | dur (seconds : Int)
  | str (parsed : Option Int)
deriving DecidableEq, Repr

/-- The duration-typed slice of the config cache used by
`_process_blocked`. -/
structure Config where
  account_age : DurConfig
  guild_age : DurConfig
deriving DecidableEq, Repr

/-- Resolution of a stored duration config value in `_process_blocked`
(src/bot.py lines 504-531): `None` becomes the zero duration, a duration
object is used as is, a parsable string is parsed, and a malformed string is
logged and removed.  Modelled from the spec: `ConfigManager.remove`
(core/config.py, not in src/) resets the key to absent and the evaluation
proceeds with the default zero duration, per spec sections 4.1 and 7. -/
def resolveDur : DurConfig → Int × DurConfig
  | .absent => (0, .absent)
  | .dur d => (d, .dur d)
  | .str (some d) => (d, .str (some d))
  | .str none => (0, .absent)

/-- The persisted block map `config["blocked"]`: user id, stored reason. -/
abbrev BlockMap := List (Nat × String)

/-- Python `self.blocked_users.get(str(id))`. -/
def lookupBlock (m : BlockMap) (k : Nat) : Option String :=
  (m.find? (fun p => p.1 == k)).map (fun p => p.2)

/-- Python `str(id) in self.blocked_users`. -/
def containsBlock (m : BlockMap) (k : Nat) : Bool :=
  (lookupBlock m k).isSome

/-- Python `self.blocked_users.pop(str(id))` (removal of the key). -/
def eraseBlock (m : BlockMap) (k : Nat) : BlockMap :=
  m.filter (fun p => p.1 != k)

/-- The message author as seen by `_process_blocked`: user id, account
creation timestamp, and the optional guild join timestamp
(`getattr(message.author, "joined_at", None)`). -/
structure Author where
  id : Nat
  created_at : Int
  joined_at : Option Int
deriving DecidableEq, Repr

/-- The mutable state touched by `_process_blocked`: the persisted block map
`config["blocked"]` and the whitelist `config["blocked_whitelist"]`. -/
structure BlockState where
  blocked : BlockMap
  whitelist : List Nat
deriving DecidableEq, Repr

/-- Which of the two configured emoji `_process_blocked` reacts with. -/
inductive Reaction where
  | sent
  | blocked
deriving DecidableEq, Repr

/-- The observable outcome of one `_process_blocked` evaluation: the
returned Boolean, the updated block state, whether the user-visible
wait-time notice embed was sent, the reaction added, and the config cache
after possible removal of malformed duration values. -/
structure BlockOutcome where
  isBlocked : Bool
  state : BlockState
  notice : Bool
  reaction : Reaction
  cfg : Config
deriving DecidableEq, Repr

/-- The decision-relevant projection of a block outcome: the returned
Boolean, the block state, the notice flag and the reaction (everything
except the config cache). -/
def outcomeView (o : BlockOutcome) : Bool × BlockState × Bool × Reaction :=
  (o.isBlocked, o.state, o.notice, o.reaction)

/-- The literal reason text stored for a fresh new-account system block
(src/bot.py lines 557-559). -/
def newAccountReason (delta : String) : String :=
  "System Message: New Account. Required to wait for " ++ delta ++ "."

/-- The literal reason text stored for a fresh recently-joined system block
(src/bot.py lines 580-582). -/
def recentlyJoinedReason (delta : String) : String :=
  "System Message: Recently Joined. Required to wait for " ++ delta ++ "."

/-- The new-account system reason marker tested with `startswith`. -/
def newAccountMark : String := "System Message: New Account."

/-- The recently-joined system reason marker tested with `startswith`. -/
def recentlyJoinedMark : String := "System Message: Recently Joined."

/-- Modelled from the spec: `human_timedelta` (core/time.py, not in src/)
renders a timestamp as human-readable remaining-wait text; no claim depends
on the rendered text, only on the fixed marker preceding it. -/
def human_timedelta (t : Int) : String := toString t

/-- The config cache after one non-whitelisted evaluation: both duration
values resolved, malformed ones discarded. -/
def resolvedConfig (cfg : Config) : Config :=
  ⟨(resolveDur cfg.account_age).2, (resolveDur cfg.guild_age).2⟩

/-- The `min_account_age` computed at src/bot.py line 537:
`message.author.created_at + account_age` after duration resolution. -/
def minAccountAge (cfg : Config) (author : Author) : Int :=
  author.created_at + (resolveDur cfg.account_age).1

/-- The `min_guild_age` computed at src/bot.py lines 542-545: initialised to
`now` and overwritten with `joined_at + guild_age` when the author has a
`joined_at` attribute. -/
def minGuildAge (cfg : Config) (author : Author) (now : Int) : Int :=
  match author.joined_at with
  | some j => j + (resolveDur cfg.guild_age).1
  | none => now

/-- Translation of `ModmailBot._process_blocked` (src/bot.py lines 483-623).
The emoji retrieval is abstracted to the `Reaction` tag actually added.
Result `none` models the uncaught `ValueError` of
`datetime.fromisoformat(end_time.group(1))` at line 608. -/
def process_blocked (cfg : Config) (author : Author) (now : Int)
    (st : BlockState) : Option BlockOutcome :=
  if st.whitelist.contains author.id then
    let blocked' :=
      if containsBlock st.blocked author.id then eraseBlock st.blocked author.id
      else st.blocked
    some { isBlocked := false
           state := { st with blocked := blocked' }
           notice := false
           reaction := .sent
           cfg := cfg }
  else
    let cfg' : Config := resolvedConfig cfg
    let reason := (lookupBlock st.blocked author.id).getD ""
    let min_account_age := minAccountAge cfg author
    let min_guild_age := minGuildAge cfg author now
    if min_account_age > now then
      let changed := !containsBlock st.blocked author.id
      let blocked' :=
        if changed then
          (author.id, newAccountReason (human_timedelta min_account_age))
            :: st.blocked
        else st.blocked
      some { isBlocked := containsBlock blocked' author.id
             state := { st with blocked := blocked' }
             notice := strStartsWith reason newAccountMark || changed
             reaction := .blocked
             cfg := cfg' }
    else if min_guild_age > now then
      let changed := !containsBlock st.blocked author.id
      let blocked' :=
        if changed then
          (author.id, recentlyJoinedReason (human_timedelta min_guild_age))
            :: st.blocked
        else st.blocked
      some { isBlocked := containsBlock blocked' author.id
             state := { st with blocked := blocked' }
             notice := strStartsWith reason recentlyJoinedMark || changed
             reaction := .blocked
             cfg := cfg' }
    else if containsBlock st.blocked author.id then
      if strStartsWith reason newAccountMark
          || strStartsWith reason recentlyJoinedMark then
        let blocked' := eraseBlock st.blocked author.id
        some { isBlocked := containsBlock blocked' author.id
               state := { st with blocked := blocked' }
               notice := false
               reaction := .sent
               cfg := cfg' }
      else
        match search_expiry reason with
        | some g =>
          match fromisoformat g with
          | none => none
          | some endT =>
            if endT - now ≤ 0 then
              let blocked' := eraseBlock st.blocked author.id
              some { isBlocked := containsBlock blocked' author.id
                     state := { st with blocked := blocked' }
                     notice := false
                     reaction := .sent
                     cfg := cfg' }
            else
              some { isBlocked := containsBlock st.blocked author.id
                     state := st
                     notice := false
                     reaction := .blocked
                     cfg := cfg' }
        | none =>
          some { isBlocked := containsBlock st.blocked author.id
                 state := st
                 notice := false
                 reaction := .blocked
                 cfg := cfg' }
    else
      some { isBlocked := containsBlock st.blocked author.id
             state := st
             notice := false
             reaction := .sent
             cfg := cfg' }

/-- The core actions dispatched while handling one inbound DM, in order. -/
inductive CoreAction where
  | blockEval
  | findOrCreate (recipient : Nat)
  | sendToThread (recipient : Nat)
deriving DecidableEq, Repr

/-- Translation of `ModmailBot.process_modmail` (src/bot.py lines 625-632):
evaluate `_process_blocked`, then find-or-create the thread and relay the
message into it only when the evaluation returned `False`.  The result is
the ordered action trace plus the updated block state; `none` propagates the
uncaught exception from `_process_blocked`. -/
def process_modmail (cfg : Config) (author : Author) (now : Int)
    (st : BlockState) : Option (List CoreAction × BlockState) :=
  match process_blocked cfg author now st with
  | none => none
  | some o =>
    some (CoreAction.blockEval ::
      (if o.isBlocked then []
       else [CoreAction.findOrCreate author.id,
             CoreAction.sendToThread author.id]),
      o.state)

/-- One persisted pending closure record (`config["closures"][recipient]`,
src/bot.py lines 407-432); `time` is the absolute fire timestamp. -/
structure ClosureItem where
  time : Int
  closer_id : Nat
  silent : Bool
  delete_channel : Bool
  message : Option String
  auto_close : Bool
deriving DecidableEq, Repr

/-- A call to `thread.close(...)` issued during startup recovery. -/
structure CloseCall where
  recipient : Nat
  after : Int
  silent : Bool
  delete_channel : Bool
  message : Option String
  auto_close : Bool
deriving DecidableEq, Repr

/-- Translation of the closure-recovery loop of `ModmailBot.on_ready`
(src/bot.py lines 406-432): for each persisted closure the remaining delay
is computed and clamped at zero; a recipient that no longer resolves to a
thread has its record popped from `config["closures"]` without a close
call; otherwise `thread.close` is invoked with the remaining delay and the
record is left for the closure machinery.  Returns the close calls issued
and the persisted records remaining after the loop.  `threads r` models
`await self.threads.find(recipient_id=r)` resolving to a live thread. -/
def recover_closures (now : Int) (threads : Nat → Bool) :
    List (Nat × ClosureItem) → List CloseCall × List (Nat × ClosureItem)
  | [] => ([], [])
  | (rid, item) :: rest =>
    let after0 := item.time - now
    let after := if after0 < 0 then 0 else after0
    if threads rid then
      let r := recover_closures now threads rest
      (⟨rid, after, item.silent, item.delete_channel,
         item.message, item.auto_close⟩ :: r.1,
       (rid, item) :: r.2)
    else
      recover_closures now threads rest

/-- The thread data used by the DM branch of `on_raw_reaction_add`: the
creation timestamp of the thread's relay channel
(`thread.channel.created_at`). -/
structure DMThread where
  channel_created_at : Int
deriving DecidableEq, Repr

/-- An embed carried by a fetched message; only the timestamp is inspected
by the DM close path. -/
structure Embed where
  timestamp : Option Int
deriving DecidableEq, Repr

/-- A message fetched by `channel.fetch_message`. -/
structure FetchedMessage where
  embeds : List Embed
deriving DecidableEq, Repr

/-- Python `message.embeds[0].timestamp if message.embeds else None`
(src/bot.py line 809). -/
def first_embed_timestamp (m : FetchedMessage) : Option Int :=
  match m.embeds with
  | [] => none
  | e :: _ => e.timestamp

/-- Translation of the DM branch of `ModmailBot.on_raw_reaction_add`
(src/bot.py lines 785-821): returns `some closerId` exactly when
`thread.close(closer=user)` is invoked.  `message = none` models the
`discord.NotFound` early return; `thread` is the registry's answer to
`find(recipient=user)`; `recipient_thread_close` is the validated Boolean
of the config flag of the same name. -/
def on_raw_reaction_add_dm (user_id : Nat) (user_is_bot : Bool)
    (message : Option FetchedMessage) (emoji close_emoji : String)
    (thread : Option DMThread) (recipient_thread_close : Bool) :
    Option Nat :=
  if user_is_bot then none
  else
    match message with
    | none => none
    | some m =>
      if emoji = close_emoji then
        match thread with
        | some t =>
          let ts := first_embed_timestamp m
          if ts = some t.channel_created_at then
            if recipient_thread_close then some user_id else none
          else none
        | none => none
      else none

/-- The kind of deleted guild channel. -/
inductive ChannelKind where
  | category
  | text
  | other
deriving DecidableEq, Repr

/-- A deleted guild channel as seen by `on_guild_channel_delete`. -/
structure DeletedChannel where
  id : Nat
  kind : ChannelKind
  in_modmail_guild : Bool
deriving DecidableEq, Repr

/-- The single outcome of `on_guild_channel_delete`. -/
inductive GuildDeleteOutcome where
  | ignore
  | clearMainCategory
  | clearLogChannel
  | closeThread (closer : Nat) (silent : Bool) (delete_channel : Bool)
deriving DecidableEq, Repr

/-- Translation of `ModmailBot.on_guild_channel_delete` (src/bot.py lines
835-864): `deleter` is the audit-log user for the deletion, `log_channel`
the resolved `self.log_channel` (`none` when no log channel resolves),
`thread_at_channel` whether `threads.find(channel=channel)` succeeds. -/
def on_guild_channel_delete (ch : DeletedChannel) (deleter bot_id : Nat)
    (main_category_id : Option Nat) (log_channel : Option Nat)
    (thread_at_channel : Bool) : GuildDeleteOutcome :=
  if !ch.in_modmail_guild then .ignore
  else if deleter = bot_id then .ignore
  else
    match ch.kind with
    | .category =>
      if main_category_id = some ch.id then .clearMainCategory else .ignore
    | .other => .ignore
    | .text =>
      if log_channel = none ∨ log_channel = some ch.id then .clearLogChannel
      else if thread_at_channel then .closeThread deleter true false
      else .ignore

/-- The dispatch-level actions of `ModmailBot.on_message`, in order. -/
inductive MsgAction where
  | deletePinNotice
  | runProcessModmail
  | invokeCommand
  | threadReply
  | appendLog
  | dispatchCommandNotFound
deriving DecidableEq, Repr

/-- An inbound gateway message as seen by `on_message`. -/
structure InboundMessage where
  author_id : Nat
  author_is_bot : Bool
  is_pins_add : Bool
  is_dm : Bool
deriving DecidableEq, Repr

/-- Translation of `ModmailBot.on_message` (src/bot.py lines 693-735) at
dispatch level: `ctx_command` models `ctx.command` being resolved by
`get_context` (the command framework is an external collaborator),
`thread_at_channel` models `threads.find(channel=ctx.channel)` succeeding,
`reply_without_command` the validated config flag, and `invoked_with`
whether a prefix-plus-word was parsed.  Snippet substitution only rewrites
message content and is invisible at this level. -/
def on_message (bot_id : Nat) (msg : InboundMessage) (ctx_command : Bool)
    (thread_at_channel : Bool) (reply_without_command : Bool)
    (invoked_with : Bool) : List MsgAction :=
  (if msg.is_pins_add && msg.author_id == bot_id then
     [MsgAction.deletePinNotice]
   else []) ++
  if msg.author_is_bot then []
  else if msg.is_dm then [MsgAction.runProcessModmail]
  else if ctx_command then [MsgAction.invokeCommand]
  else if thread_at_channel then
    if reply_without_command then [MsgAction.threadReply]
    else [MsgAction.appendLog]
  else if invoked_with then [MsgAction.dispatchCommandNotFound]
  else []

/-! Helper lemmas about the block map. -/

theorem lookupBlock_eraseBlock (m : BlockMap) (k : Nat) :
    lookupBlock (eraseBlock m k) k = none := by
  induction m with
  | nil => rfl
  | cons p ps ih =>
    by_cases h : p.1 = k
    · simp only [eraseBlock, List.filter_cons, h]
      simp only [bne_self_eq_false, if_false]
      exact ih
    · simp only [eraseBlock, List.filter_cons]
      rw [if_pos (by simp [h]), lookupBlock]
      rw [List.find?_cons_of_neg _ (by simp [h])]
      exact ih

theorem containsBlock_eraseBlock (m : BlockMap) (k : Nat) :
    containsBlock (eraseBlock m k) k = false := by
  simp [containsBlock, lookupBlock_eraseBlock]

theorem lookupBlock_cons_self (m : BlockMap) (k : Nat) (v : String) :
    lookupBlock ((k, v) :: m) k = some v := by
  simp [lookupBlock, List.find?]

theorem containsBlock_cons_self (m : BlockMap) (k : Nat) (v : String) :
    containsBlock ((k, v) :: m) k = true := by
  simp [containsBlock, lookupBlock_cons_self]

theorem containsBlock_of_lookup {m : BlockMap} {k : Nat} {r : String}
    (h : lookupBlock m k = some r) : containsBlock m k = true := by
  simp [containsBlock, h]

/-- In every terminating evaluation, the Boolean returned by
`_process_blocked` agrees with membership of the sender in the final block
map (the source returns `str(message.author.id) in self.blocked_users`, and
the whitelist branch returns `False` after popping the entry). -/
theorem process_blocked_isBlocked_eq (cfg : Config) (author : Author)
    (now : Int) (st : BlockState) (o : BlockOutcome)
    (h : process_blocked cfg author now st = some o) :
    o.isBlocked = containsBlock o.state.blocked author.id := by
  simp only [process_blocked] at h
  repeat' split at h
  all_goals first
    | exact Option.noConfusion h
    | (simp only [Option.some.injEq] at h; subst h;
       simp_all [containsBlock, lookupBlock_eraseBlock])

/-- In every terminating non-whitelisted evaluation, the config cache ends
with the resolved duration values (malformed ones replaced by absent). -/
theorem process_blocked_cfg_eq (cfg : Config) (author : Author)
    (now : Int) (st : BlockState) (o : BlockOutcome)
    (hw : st.whitelist.contains author.id = false)
    (h : process_blocked cfg author now st = some o) :
    o.cfg = resolvedConfig cfg := by
  simp only [process_blocked, hw, Bool.false_eq_true, if_false] at h
  repeat' split at h
  all_goals first
    | exact Option.noConfusion h
    | (simp only [Option.some.injEq] at h; subst h; rfl)

/-! Claim theorems. -/

/-- C1: for every inbound DM, `process_modmail` evaluates the block policy
first, and a thread is found-or-created and the message relayed into it
only when the evaluation decided the sender is not blocked; a sender who
remains in the block set after the evaluation never creates or feeds a
thread. -/
theorem blocked_sender_never_feeds_thread (cfg : Config) (author : Author)
    (now : Int) (st : BlockState) (tr : List CoreAction) (st' : BlockState)
    (h : process_modmail cfg author now st = some (tr, st')) :
    tr.head? = some CoreAction.blockEval ∧
    (containsBlock st'.blocked author.id = true →
      tr = [CoreAction.blockEval]) ∧
    (containsBlock st'.blocked author.id = false →
      tr = [CoreAction.blockEval, CoreAction.findOrCreate author.id,
            CoreAction.sendToThread author.id]) := by
  cases ho : process_blocked cfg author now st with
  | none =>
    rw [process_modmail, ho] at h
    exact Option.noConfusion h
  | some o =>
    rw [process_modmail, ho] at h
    simp only [Option.some.injEq, Prod.mk.injEq] at h
    obtain ⟨htr, hst⟩ := h
    have hb := process_blocked_isBlocked_eq cfg author now st o ho
    subst hst
    subst htr
    refine ⟨by cases o.isBlocked <;> rfl, ?_, ?_⟩
    · intro hc
      rw [hb] at *
      simp [hc]
    · intro hc
      rw [hb] at *
      simp [hc]

/-- Witness for C1 at a concrete unblocked sender. -/
theorem blocked_sender_never_feeds_thread_witness :
    ([CoreAction.blockEval, CoreAction.findOrCreate 7,
        CoreAction.sendToThread 7].head? = some CoreAction.blockEval) ∧
    (containsBlock (⟨[], []⟩ : BlockState).blocked 7 = true →
      [CoreAction.blockEval, CoreAction.findOrCreate 7,
        CoreAction.sendToThread 7] = [CoreAction.blockEval]) ∧
    (containsBlock (⟨[], []⟩ : BlockState).blocked 7 = false →
      [CoreAction.blockEval, CoreAction.findOrCreate 7,
        CoreAction.sendToThread 7]
        = [CoreAction.blockEval, CoreAction.findOrCreate 7,
           CoreAction.sendToThread 7]) :=
  blocked_sender_never_feeds_thread ⟨.absent, .absent⟩ ⟨7, 0, none⟩ 50
    ⟨[], []⟩ _ _ (by decide)

/-- C2: for every sender in the whitelist, block evaluation returns
not-blocked regardless of account age, membership age, or any stored block
entry, and an existing block entry for the sender is removed from the
persisted block map; no wait-time notice is sent. -/
theorem whitelist_overrides_block (cfg : Config) (author : Author)
    (now : Int) (st : BlockState)
    (hw : st.whitelist.contains author.id = true) :
    ∃ o, process_blocked cfg author now st = some o ∧
      o.isBlocked = false ∧
      containsBlock o.state.blocked author.id = false ∧
      o.notice = false := by
  refine ⟨{ isBlocked := false
            state := { st with blocked :=
              (if containsBlock st.blocked author.id then
                eraseBlock st.blocked author.id
              else st.blocked) }
            notice := false
            reaction := .sent
            cfg := cfg },
    by simp only [process_blocked, hw, if_true], rfl, ?_, rfl⟩
  by_cases hc : containsBlock st.blocked author.id = true
  · simp only [hc, if_true, containsBlock_eraseBlock]
  · simp only [hc, Bool.false_eq_true, if_false]

/-- Witness for C2: a whitelisted sender with a stored block entry and an
unmet account-age threshold. -/
theorem whitelist_overrides_block_witness :
    ((⟨[(7, "spam")], [7]⟩ : BlockState).whitelist.contains 7 = true) ∧
    ∃ o, process_blocked ⟨.dur 100, .absent⟩ ⟨7, 0, none⟩ 50
        ⟨[(7, "spam")], [7]⟩ = some o ∧
      o.isBlocked = false ∧
      containsBlock o.state.blocked 7 = false ∧
      o.notice = false :=
  ⟨by decide,
   whitelist_overrides_block ⟨.dur 100, .absent⟩ ⟨7, 0, none⟩ 50
     ⟨[(7, "spam")], [7]⟩ (by decide)⟩

/-- C10: a message authored by a bot account produces, at most, the
pinned-notice deletion; message handling performs no block evaluation, no
thread creation or feeding, and no command dispatch. -/
theorem bot_author_messages_inert (bot_id : Nat) (msg : InboundMessage)
    (ctx_command thread_at_channel reply_without_command invoked_with : Bool)
    (hbot : msg.author_is_bot = true) :
    on_message bot_id msg ctx_command thread_at_channel
        reply_without_command invoked_with
      = (if msg.is_pins_add && msg.author_id == bot_id then
           [MsgAction.deletePinNotice]
         else []) ∧
    MsgAction.runProcessModmail ∉ on_message bot_id msg ctx_command
        thread_at_channel reply_without_command invoked_with ∧
    MsgAction.invokeCommand ∉ on_message bot_id msg ctx_command
        thread_at_channel reply_without_command invoked_with ∧
    MsgAction.threadReply ∉ on_message bot_id msg ctx_command
        thread_at_channel reply_without_command invoked_with ∧
    MsgAction.appendLog ∉ on_message bot_id msg ctx_command
        thread_at_channel reply_without_command invoked_with ∧
    MsgAction.dispatchCommandNotFound ∉ on_message bot_id msg ctx_command
        thread_at_channel reply_without_command invoked_with := by
  have he : on_message bot_id msg ctx_command thread_at_channel
      reply_without_command invoked_with
      = (if msg.is_pins_add && msg.author_id == bot_id then
          [MsgAction.deletePinNotice]
        else []) := by
    simp [on_message, hbot]
  refine ⟨he, ?_, ?_, ?_, ?_, ?_⟩ <;> rw [he] <;>
    by_cases hp : (msg.is_pins_add && msg.author_id == bot_id) = true <;>
    simp [hp]

/-- Witness for C10: a bot-authored pin-notice DM. -/
theorem bot_author_messages_inert_witness :
    (on_message 3 ⟨3, true, true, true⟩ true true true true
      = (if (⟨3, true, true, true⟩ : InboundMessage).is_pins_add
            && (⟨3, true, true, true⟩ : InboundMessage).author_id == 3 then
           [MsgAction.deletePinNotice]
         else [])) ∧
    MsgAction.runProcessModmail ∉ on_message 3 ⟨3, true, true, true⟩
        true true true true ∧
    MsgAction.invokeCommand ∉ on_message 3 ⟨3, true, true, true⟩
        true true true true ∧
    MsgAction.threadReply ∉ on_message 3 ⟨3, true, true, true⟩
        true true true true ∧
    MsgAction.appendLog ∉ on_message 3 ⟨3, true, true, true⟩
        true true true true ∧
    MsgAction.dispatchCommandNotFound ∉ on_message 3 ⟨3, true, true, true⟩
        true true true true :=
  bot_author_messages_inert 3 ⟨3, true, true, true⟩ true true true true rfl

/-- C8: a close-emoji reaction by a (non-bot) recipient with a live thread,
on a fetched message of their private channel, closes the thread with the
recipient as closer exactly when the reacted message's first embed
timestamp equals the thread channel's creation timestamp and the
recipient-thread-close feature is enabled; any close that does happen
records the reactor as closer. -/
theorem reaction_close_iff_creation_notice (user_id : Nat)
    (m : FetchedMessage) (emoji close_emoji : String) (t : DMThread)
    (recipient_thread_close : Bool) (hemoji : emoji = close_emoji) :
    (on_raw_reaction_add_dm user_id false (some m) emoji close_emoji
        (some t) recipient_thread_close = some user_id
      ↔ (first_embed_timestamp m = some t.channel_created_at ∧
         recipient_thread_close = true)) ∧
    (∀ x, on_raw_reaction_add_dm user_id false (some m) emoji close_emoji
        (some t) recipient_thread_close = some x → x = user_id) := by
  subst hemoji
  constructor
  · by_cases hts : first_embed_timestamp m = some t.channel_created_at
    · by_cases hrtc : recipient_thread_close = true
      · simp [on_raw_reaction_add_dm, hts, hrtc]
      · simp [on_raw_reaction_add_dm, hts, hrtc]
    · simp [on_raw_reaction_add_dm, hts]
  · intro x hx
    simp only [on_raw_reaction_add_dm] at hx
    repeat' split at hx
    all_goals first
      | exact Option.noConfusion hx
      | (injection hx with hx; exact hx.symm)

/-- Witness for C8: the reacted message carries the creation-notice embed
timestamp and the feature is enabled, so the thread closes with the
recipient as closer. -/
theorem reaction_close_iff_creation_notice_witness :
    ("x" = "x") ∧
    ((on_raw_reaction_add_dm 7 false (some ⟨[⟨some 40⟩]⟩) "x" "x"
        (some ⟨40⟩) true = some 7
      ↔ (first_embed_timestamp ⟨[⟨some 40⟩]⟩ = some (⟨40⟩ : DMThread).channel_created_at ∧
         true = true)) ∧
    (∀ x, on_raw_reaction_add_dm 7 false (some ⟨[⟨some 40⟩]⟩) "x" "x"
        (some ⟨40⟩) true = some x → x = 7)) :=
  ⟨rfl, reaction_close_iff_creation_notice 7 ⟨[⟨some 40⟩]⟩ "x" "x" ⟨40⟩ true rfl⟩

/-- C9 counterexample: a guild text channel backing an active thread is
deleted by a non-bot identity, but no log channel resolves, so the handler
only clears the stored log-channel id and closes nothing — contradicting
the claim that the thread is always closed in this situation. -/
theorem channel_delete_no_close_cex :
    on_guild_channel_delete ⟨5, .text, true⟩ 7 1 (some 9) none true
      = GuildDeleteOutcome.clearLogChannel ∧
    GuildDeleteOutcome.clearLogChannel ≠ GuildDeleteOutcome.closeThread 7 true false := by
  decide

/-- C9 (amended): when a guild text channel backing an active thread is
deleted by a non-bot identity and a log channel resolves to a different
channel, the thread is closed with the deleter as closer, silently and
without deleting the channel; a deletion performed by the bot itself closes
nothing. -/
theorem channel_delete_closes_thread (ch : DeletedChannel)
    (deleter bot_id : Nat) (main_category_id : Option Nat) (lc : Nat)
    (hin : ch.in_modmail_guild = true) (hkind : ch.kind = .text)
    (hlc : lc ≠ ch.id) (hmod : deleter ≠ bot_id) :
    on_guild_channel_delete ch deleter bot_id main_category_id (some lc) true
      = GuildDeleteOutcome.closeThread deleter true false ∧
    on_guild_channel_delete ch bot_id bot_id main_category_id (some lc) true
      = GuildDeleteOutcome.ignore := by
  constructor
  · simp [on_guild_channel_delete, hin, hkind, hmod, hlc]
  · simp [on_guild_channel_delete, hin]

/-- Witness for the amended C9 at a concrete channel and deleter. -/
theorem channel_delete_closes_thread_witness :
    (on_guild_channel_delete ⟨5, .text, true⟩ 7 1 (some 9) (some 11) true
      = GuildDeleteOutcome.closeThread 7 true false) ∧
    (on_guild_channel_delete ⟨5, .text, true⟩ 1 1 (some 9) (some 11) true
      = GuildDeleteOutcome.ignore) :=
  channel_delete_closes_thread ⟨5, .text, true⟩ 7 1 (some 9) 11
    rfl rfl (by decide) (by decide)

/-- Every close call issued by startup recovery, and every persisted record
it keeps, belongs to a recipient that resolved to a live thread. -/
theorem recover_closures_live (now : Int) (threads : Nat → Bool)
    (l : List (Nat × ClosureItem)) :
    (∀ c ∈ (recover_closures now threads l).1, threads c.recipient = true) ∧
    (∀ p ∈ (recover_closures now threads l).2, threads p.1 = true) := by
  induction l with
  | nil => exact ⟨fun c hc => by simp [recover_closures] at hc,
                  fun p hp => by simp [recover_closures] at hp⟩
  | cons hd tl ih =>
    obtain ⟨rid, item⟩ := hd
    by_cases ht : threads rid = true
    · constructor
      · intro c hc
        simp only [recover_closures, ht, if_true, List.mem_cons] at hc
        rcases hc with rfl | hc
        · exact ht
        · exact ih.1 c hc
      · intro p hp
        simp only [recover_closures, ht, if_true, List.mem_cons] at hp
        rcases hp with rfl | hp
        · exact ht
        · exact ih.2 p hp
    · constructor
      · intro c hc
        simp only [recover_closures, ht, Bool.false_eq_true, if_false] at hc
        exact ih.1 c hc
      · intro p hp
        simp only [recover_closures, ht, Bool.false_eq_true, if_false] at hp
        exact ih.2 p hp

/-- Every persisted closure whose recipient resolves to a live thread has a
close call issued with the clamped remaining delay. -/
theorem recover_closures_fires (now : Int) (threads : Nat → Bool)
    (l : List (Nat × ClosureItem)) (rid : Nat) (item : ClosureItem)
    (hmem : (rid, item) ∈ l) (ht : threads rid = true) :
    (⟨rid, if item.time - now < 0 then 0 else item.time - now,
       item.silent, item.delete_channel, item.message, item.auto_close⟩
      : CloseCall) ∈ (recover_closures now threads l).1 := by
  induction l with
  | nil => cases hmem
  | cons hd tl ih =>
    obtain ⟨k, it⟩ := hd
    rcases List.mem_cons.mp hmem with heq | htl
    · cases heq
      simp only [recover_closures, ht, if_true]
      exact List.mem_cons_self _ _
    · by_cases hk : threads k = true
      · simp only [recover_closures, hk, if_true, List.mem_cons]
        exact Or.inr (ih htl)
      · simp only [recover_closures, hk, Bool.false_eq_true, if_false]
        exact ih htl

/-- C7: at startup, a persisted closure whose recipient no longer resolves
to a live thread has its record removed without any close call; for a
recipient with a live thread, a past-due fire time is clamped to zero
(fired immediately), and a future fire time is re-armed for exactly the
remaining delay. -/
theorem closure_recovery_behavior (now : Int) (threads : Nat → Bool)
    (closures : List (Nat × ClosureItem)) (rid : Nat) (item : ClosureItem)
    (hmem : (rid, item) ∈ closures) :
    (threads rid = false →
      (∀ it : ClosureItem,
        (rid, it) ∉ (recover_closures now threads closures).2) ∧
      (∀ c ∈ (recover_closures now threads closures).1,
        c.recipient ≠ rid)) ∧
    (threads rid = true → item.time ≤ now →
      (⟨rid, 0, item.silent, item.delete_channel, item.message,
         item.auto_close⟩ : CloseCall)
        ∈ (recover_closures now threads closures).1) ∧
    (threads rid = true → now < item.time →
      (⟨rid, item.time - now, item.silent, item.delete_channel, item.message,
         item.auto_close⟩ : CloseCall)
        ∈ (recover_closures now threads closures).1) := by
  refine ⟨?_, ?_, ?_⟩
  · intro hdead
    constructor
    · intro it hin
      have hlive := (recover_closures_live now threads closures).2 (rid, it) hin
      rw [hdead] at hlive
      exact Bool.noConfusion hlive
    · intro c hc hceq
      have hlive := (recover_closures_live now threads closures).1 c hc
      rw [hceq, hdead] at hlive
      exact Bool.noConfusion hlive
  · intro ht htime
    have hfire := recover_closures_fires now threads closures rid item hmem ht
    have heq : (if item.time - now < 0 then 0 else item.time - now) = 0 := by
      by_cases hlt : item.time - now < 0
      · simp [hlt]
      · simp only [hlt, if_false]
        omega
    rw [heq] at hfire
    exact hfire
  · intro ht htime
    have hfire := recover_closures_fires now threads closures rid item hmem ht
    have heq : (if item.time - now < 0 then 0 else item.time - now)
        = item.time - now := by
      rw [if_neg (by omega)]
    rw [heq] at hfire
    exact hfire

/-- Witness for C7: one live past-due closure (fired with zero delay) at a
concrete startup instant. -/
theorem closure_recovery_behavior_witness :
    (((fun _ => true) : Nat → Bool) 7 = false →
      (∀ it : ClosureItem,
        (7, it) ∉ (recover_closures 600 (fun _ => true)
          [(7, ⟨0, 2, false, true, none, false⟩)]).2) ∧
      (∀ c ∈ (recover_closures 600 (fun _ => true)
          [(7, ⟨0, 2, false, true, none, false⟩)]).1, c.recipient ≠ 7)) ∧
    (((fun _ => true) : Nat → Bool) 7 = true →
      (0 : Int) ≤ 600 →
      (⟨7, 0, false, true, none, false⟩ : CloseCall)
        ∈ (recover_closures 600 (fun _ => true)
            [(7, ⟨0, 2, false, true, none, false⟩)]).1) ∧
    (((fun _ => true) : Nat → Bool) 7 = true →
      (600 : Int) < 0 →
      (⟨7, 0 - 600, false, true, none, false⟩ : CloseCall)
        ∈ (recover_closures 600 (fun _ => true)
            [(7, ⟨0, 2, false, true, none, false⟩)]).1) :=
  closure_recovery_behavior 600 (fun _ => true)
    [(7, ⟨0, 2, false, true, none, false⟩)] 7 ⟨0, 2, false, true, none, false⟩
    (by simp)

/-- C3 counterexample: a non-whitelisted sender whose account age is unmet
but who already holds an operator block entry `"spam"` is rejected without
any entry of the new-account kind being created — after the evaluation the
sender's only stored entry is still `"spam"`, so no system block of the
new-account kind exists, contradicting the claim that one is ensured. -/
theorem new_account_kind_not_ensured_cex :
    ((process_blocked ⟨.dur 100, .absent⟩ ⟨7, 0, none⟩ 50
        ⟨[(7, "spam")], []⟩).map
        (fun o => (o.isBlocked, o.state.blocked, o.notice)))
      = some (true, [(7, "spam")], false) ∧
    strStartsWith "spam" newAccountMark = false ∧
    minAccountAge ⟨.dur 100, .absent⟩ ⟨7, 0, none⟩ > 50 := by
  decide

/-- C3 (amended): for every non-whitelisted sender whose account age has
not met the threshold, evaluation ensures a block entry exists — creating
one of the new-account kind when none was present and leaving an existing
entry untouched — and rejects the message; the wait-time notice is sent
exactly when the entry was just created or the stored reason already
starts with the new-account kind. -/
theorem new_account_branch_behavior (cfg : Config) (author : Author)
    (now : Int) (st : BlockState)
    (hw : st.whitelist.contains author.id = false)
    (hage : minAccountAge cfg author > now) :
    ∃ o, process_blocked cfg author now st = some o ∧
      o.isBlocked = true ∧
      containsBlock o.state.blocked author.id = true ∧
      (lookupBlock st.blocked author.id = none →
        o.state.blocked
          = (author.id,
              newAccountReason (human_timedelta (minAccountAge cfg author)))
            :: st.blocked) ∧
      (∀ r, lookupBlock st.blocked author.id = some r →
        o.state.blocked = st.blocked) ∧
      o.notice = (strStartsWith ((lookupBlock st.blocked author.id).getD "")
          newAccountMark || !containsBlock st.blocked author.id) := by
  refine ⟨{ isBlocked := containsBlock
              (if !containsBlock st.blocked author.id then
                (author.id,
                  newAccountReason (human_timedelta (minAccountAge cfg author)))
                  :: st.blocked
              else st.blocked) author.id
            state := { st with blocked :=
              (if !containsBlock st.blocked author.id then
                (author.id,
                  newAccountReason (human_timedelta (minAccountAge cfg author)))
                  :: st.blocked
              else st.blocked) }
            notice := strStartsWith ((lookupBlock st.blocked author.id).getD "")
                newAccountMark || !containsBlock st.blocked author.id
            reaction := .blocked
            cfg := resolvedConfig cfg },
    ?_, ?_, ?_, ?_, ?_, rfl⟩
  · simp only [process_blocked, hw, Bool.false_eq_true, if_false]
    rw [if_pos hage]
  · by_cases hc : containsBlock st.blocked author.id = true <;>
      simp [hc, containsBlock_cons_self]
  · by_cases hc : containsBlock st.blocked author.id = true <;>
      simp [hc, containsBlock_cons_self]
  · intro hnone
    have hcf : containsBlock st.blocked author.id = false := by
      simp [containsBlock, hnone]
    simp [hcf]
  · intro r hr
    have hct := containsBlock_of_lookup hr
    simp [hct]

/-- Witness for the amended C3: a fresh young account with no stored entry
gets a new-account block created and the notice sent. -/
theorem new_account_branch_behavior_witness :
    ((⟨[], []⟩ : BlockState).whitelist.contains 7 = false) ∧
    (minAccountAge ⟨.dur 100, .absent⟩ ⟨7, 0, none⟩ > 50) ∧
    ∃ o, process_blocked ⟨.dur 100, .absent⟩ ⟨7, 0, none⟩ 50 ⟨[], []⟩
        = some o ∧
      o.isBlocked = true ∧
      containsBlock o.state.blocked 7 = true ∧
      (lookupBlock (⟨[], []⟩ : BlockState).blocked 7 = none →
        o.state.blocked
          = (7, newAccountReason
              (human_timedelta (minAccountAge ⟨.dur 100, .absent⟩ ⟨7, 0, none⟩)))
            :: (⟨[], []⟩ : BlockState).blocked) ∧
      (∀ r, lookupBlock (⟨[], []⟩ : BlockState).blocked 7 = some r →
        o.state.blocked = (⟨[], []⟩ : BlockState).blocked) ∧
      o.notice = (strStartsWith
          ((lookupBlock (⟨[], []⟩ : BlockState).blocked 7).getD "")
          newAccountMark || !containsBlock (⟨[], []⟩ : BlockState).blocked 7) :=
  ⟨by decide, by decide,
   new_account_branch_behavior ⟨.dur 100, .absent⟩ ⟨7, 0, none⟩ 50 ⟨[], []⟩
     (by decide) (by decide)⟩

/-- C4 counterexample: a sender holding a new-account system block whose
account-age condition is satisfied is still rejected and the entry
retained, because the guild-age condition is not yet met — contradicting
the claim that satisfying the corresponding age condition removes the
entry and accepts. -/
theorem temporal_block_retained_cex :
    ((process_blocked ⟨.absent, .dur 100⟩ ⟨7, 0, some 0⟩ 50
        ⟨[(7, "System Message: New Account. Required to wait for 100.")],
          []⟩).map (fun o => (o.isBlocked, o.state.blocked)))
      = some (true,
          [(7, "System Message: New Account. Required to wait for 100.")]) ∧
    strStartsWith "System Message: New Account. Required to wait for 100."
      newAccountMark = true ∧
    minAccountAge ⟨.absent, .dur 100⟩ ⟨7, 0, some 0⟩ ≤ 50 := by
  decide

/-- C4 (amended): for every non-whitelisted sender holding a stored block
entry of a temporal system kind, once both the account-age and guild-age
conditions are satisfied at evaluation time the entry is removed from the
persisted block map and the decision is not-blocked, independent of any
expiry encoded in the reason text. -/
theorem temporal_block_cleared_when_ages_met (cfg : Config) (author : Author)
    (now : Int) (st : BlockState) (r : String)
    (hw : st.whitelist.contains author.id = false)
    (hacc : minAccountAge cfg author ≤ now)
    (hguild : minGuildAge cfg author now ≤ now)
    (hr : lookupBlock st.blocked author.id = some r)
    (hsys : (strStartsWith r newAccountMark
        || strStartsWith r recentlyJoinedMark) = true) :
    process_blocked cfg author now st =
      some ⟨false, ⟨eraseBlock st.blocked author.id, st.whitelist⟩, false,
        .sent, resolvedConfig cfg⟩ ∧
    containsBlock (eraseBlock st.blocked author.id) author.id = false := by
  constructor
  · simp only [process_blocked, hw, Bool.false_eq_true, if_false]
    rw [if_neg (by omega), if_neg (by omega),
      if_pos (containsBlock_of_lookup hr)]
    simp only [hr, Option.getD_some]
    rw [if_pos hsys, containsBlock_eraseBlock]
  · exact containsBlock_eraseBlock st.blocked author.id

/-- Witness for the amended C4: a new-account block with both age
conditions met is cleared and accepted. -/
theorem temporal_block_cleared_when_ages_met_witness :
    ((⟨[(7, "System Message: New Account. Required to wait for 9.")], []⟩
        : BlockState).whitelist.contains 7 = false) ∧
    (minAccountAge ⟨.absent, .absent⟩ ⟨7, 0, some 0⟩ ≤ 50) ∧
    (process_blocked ⟨.absent, .absent⟩ ⟨7, 0, some 0⟩ 50
        ⟨[(7, "System Message: New Account. Required to wait for 9.")], []⟩ =
      some ⟨false,
        ⟨eraseBlock
           [(7, "System Message: New Account. Required to wait for 9.")] 7,
         []⟩,
        false, .sent, resolvedConfig ⟨.absent, .absent⟩⟩ ∧
     containsBlock (eraseBlock
        [(7, "System Message: New Account. Required to wait for 9.")] 7) 7
       = false) :=
  ⟨by decide, by decide,
   temporal_block_cleared_when_ages_met ⟨.absent, .absent⟩ ⟨7, 0, some 0⟩ 50
     ⟨[(7, "System Message: New Account. Required to wait for 9.")], []⟩
     "System Message: New Account. Required to wait for 9."
     (by decide) (by decide) (by decide) (by decide) (by decide)⟩

/-- C5 counterexample: a non-whitelisted sender with a non-system block
entry whose encoded expiry has elapsed is still rejected (and the entry
retained) because the account-age condition is not met at evaluation time,
contradicting the claim that an elapsed expiry always removes the entry
and accepts. -/
theorem expired_block_retained_cex :
    ((process_blocked ⟨.dur 100, .absent⟩ ⟨7, 0, none⟩ 50
        ⟨[(7, "bad%10%")], []⟩).map
        (fun o => (o.isBlocked, o.state.blocked)))
      = some (true, [(7, "bad%10%")]) ∧
    search_expiry "bad%10%" = some "10" ∧
    fromisoformat "10" = some 10 ∧
    ((10 : Int) - 50 ≤ 0) ∧
    strStartsWith "bad%10%" newAccountMark = false ∧
    strStartsWith "bad%10%" recentlyJoinedMark = false := by
  decide

/-- C5 (amended): for every non-whitelisted sender whose age conditions are
met at evaluation time and who holds a non-system block entry: an encoded
expiry that parses and has elapsed removes the entry and accepts; a reason
with no encoded expiry leaves the entry unchanged and rejects; a parsed
expiry still in the future leaves the entry unchanged and rejects. -/
theorem explicit_expiry_branch_behavior (cfg : Config) (author : Author)
    (now : Int) (st : BlockState) (r : String)
    (hw : st.whitelist.contains author.id = false)
    (hacc : minAccountAge cfg author ≤ now)
    (hguild : minGuildAge cfg author now ≤ now)
    (hr : lookupBlock st.blocked author.id = some r)
    (hna : strStartsWith r newAccountMark = false)
    (hrj : strStartsWith r recentlyJoinedMark = false) :
    (∀ g t, search_expiry r = some g → fromisoformat g = some t →
      t - now ≤ 0 →
      process_blocked cfg author now st =
        some ⟨false, ⟨eraseBlock st.blocked author.id, st.whitelist⟩, false,
          .sent, resolvedConfig cfg⟩) ∧
    (search_expiry r = none →
      process_blocked cfg author now st =
        some ⟨true, st, false, .blocked, resolvedConfig cfg⟩) ∧
    (∀ g t, search_expiry r = some g → fromisoformat g = some t →
      0 < t - now →
      process_blocked cfg author now st =
        some ⟨true, st, false, .blocked, resolvedConfig cfg⟩) := by
  have hcb := containsBlock_of_lookup hr
  have base : process_blocked cfg author now st =
      (match search_expiry r with
       | some g =>
         match fromisoformat g with
         | none => none
         | some endT =>
           if endT - now ≤ 0 then
             some ⟨containsBlock (eraseBlock st.blocked author.id) author.id,
               ⟨eraseBlock st.blocked author.id, st.whitelist⟩, false,
               .sent, resolvedConfig cfg⟩
           else
             some ⟨containsBlock st.blocked author.id, st, false,
               .blocked, resolvedConfig cfg⟩
       | none =>
         some ⟨containsBlock st.blocked author.id, st, false,
           .blocked, resolvedConfig cfg⟩) := by
    simp only [process_blocked, hw, Bool.false_eq_true, if_false]
    rw [if_neg (by omega), if_neg (by omega), if_pos hcb]
    simp only [hr, Option.getD_some]
    rw [if_neg (by simp [hna, hrj])]
  refine ⟨?_, ?_, ?_⟩
  · intro g t hg ht hle
    simp only [hg, ht] at base
    rw [base, if_pos hle, containsBlock_eraseBlock]
  · intro hnone
    simp only [hnone] at base
    rw [base, hcb]
  · intro g t hg ht hfut
    simp only [hg, ht] at base
    rw [base, if_neg (by omega), hcb]

/-- Witness for the amended C5: an operator block with an elapsed encoded
expiry, all age conditions met, is cleared and accepted. -/
theorem explicit_expiry_branch_behavior_witness :
    ((⟨[(7, "bad%10%")], []⟩ : BlockState).whitelist.contains 7 = false) ∧
    (search_expiry "bad%10%" = some "10") ∧
    (∀ g t, search_expiry "bad%10%" = some g → fromisoformat g = some t →
      t - 50 ≤ 0 →
      process_blocked ⟨.absent, .absent⟩ ⟨7, 0, none⟩ 50
          ⟨[(7, "bad%10%")], []⟩ =
        some ⟨false, ⟨eraseBlock [(7, "bad%10%")] 7, []⟩, false, .sent,
          resolvedConfig ⟨.absent, .absent⟩⟩) :=
  ⟨by decide, by decide,
   (explicit_expiry_branch_behavior ⟨.absent, .absent⟩ ⟨7, 0, none⟩ 50
     ⟨[(7, "bad%10%")], []⟩ "bad%10%"
     (by decide) (by decide) (by decide) (by decide) (by decide)
     (by decide)).1⟩

/-- C6: a malformed stored duration value behaves exactly like an absent
one for the decision, state, notice and reaction, and (whenever the
duration logic is reached, i.e. the sender is not whitelisted) the
malformed value is discarded from the config cache, reset to absent. -/
theorem malformed_duration_discarded (acf gcf : DurConfig) (author : Author)
    (now : Int) (st : BlockState) :
    ((process_blocked ⟨.str none, gcf⟩ author now st).map outcomeView
      = (process_blocked ⟨.absent, gcf⟩ author now st).map outcomeView) ∧
    ((process_blocked ⟨acf, .str none⟩ author now st).map outcomeView
      = (process_blocked ⟨acf, .absent⟩ author now st).map outcomeView) ∧
    (st.whitelist.contains author.id = false →
      ∀ o, process_blocked ⟨.str none, gcf⟩ author now st = some o →
        o.cfg.account_age = .absent) ∧
    (st.whitelist.contains author.id = false →
      ∀ o, process_blocked ⟨acf, .str none⟩ author now st = some o →
        o.cfg.guild_age = .absent) := by
  refine ⟨?_, ?_, ?_, ?_⟩
  · by_cases hw : author.id ∈ st.whitelist <;>
      simp [process_blocked, hw, outcomeView, resolveDur, minAccountAge,
        minGuildAge, resolvedConfig]
  · by_cases hw : author.id ∈ st.whitelist <;>
      simp [process_blocked, hw, outcomeView, resolveDur, minAccountAge,
        minGuildAge, resolvedConfig]
  · intro hw o ho
    rw [process_blocked_cfg_eq _ _ _ _ _ hw ho]
    rfl
  · intro hw o ho
    rw [process_blocked_cfg_eq _ _ _ _ _ hw ho]
    rfl

/-- Witness for C6 at a concrete sender and malformed account-age value. -/
theorem malformed_duration_discarded_witness :
    (((process_blocked ⟨.str none, .absent⟩ ⟨7, 0, none⟩ 50 ⟨[], []⟩).map
        outcomeView
      = (process_blocked ⟨.absent, .absent⟩ ⟨7, 0, none⟩ 50 ⟨[], []⟩).map
        outcomeView)) ∧
    ((⟨[], []⟩ : BlockState).whitelist.contains 7 = false) ∧
    (∀ o, process_blocked ⟨.str none, .absent⟩ ⟨7, 0, none⟩ 50 ⟨[], []⟩
        = some o → o.cfg.account_age = .absent) :=
  ⟨(malformed_duration_discarded .absent .absent ⟨7, 0, none⟩ 50 ⟨[], []⟩).1,
   by decide,
   (malformed_duration_discarded .absent .absent ⟨7, 0, none⟩ 50
     ⟨[], []⟩).2.2.1 (by decide)⟩

end Modmail
